import Mathlib

/-!
# s3proxy: a shallow embedding of `src/s3proxy.go` and `src/utils/utils.go`

Go strings are embedded as Lean `String`s (the text is taken to be valid UTF-8; every
separator the program looks for -- `,` and `:` -- and every digit or sign is a single ASCII
byte, so cutting at a byte index and cutting at a character index agree).
`int` and `time.Duration` are 64-bit signed integers, embedded as `Int` (a `time.Duration`
counts nanoseconds).  The standard-library and SDK functions the program calls
(`os.Getenv`, `strconv.Atoi`, `strings.Split`, `strings.TrimSpace`, `strings.LastIndex`,
`http.Header.Get`, `ioutil.ReadAll`, `context.WithTimeout`) are modelled from their
documented behaviour.
-/

namespace strconv

/-- The two errors `strconv` reports for a number: `ErrSyntax` and `ErrRange`. -/
inductive NumError where
  | ErrSyntax
  | ErrRange
  deriving DecidableEq, Repr

/-- Size of Go's `int` in bits on the platform (`strconv.IntSize`). -/
def IntSize : Nat := 64

/-- Largest `uint64`. -/
def maxUint64 : Nat := 2 ^ 64 - 1

/-- The digit loop of `strconv.ParseUint(s, 10, bitSize)`; `n` is the accumulator, a `uint64`.
A byte that is no decimal digit ends the loop with a syntax error and value 0 (in base 10
the letter branch and the default branch of the original both end so).  An overflow ends
the loop at once with `maxVal` and a range error, whatever follows. -/
def parseUintLoop (maxVal : Nat) : List Char → Nat → Nat × Option NumError
  | [], n => (n, none)
  | c :: cs, n =>
    if '0' ≤ c ∧ c ≤ '9' then
      let d := c.toNat - '0'.toNat
      -- cutoff is the smallest number such that cutoff*10 > maxUint64
      if n ≥ maxUint64 / 10 + 1 then
        (maxVal, some .ErrRange)
      else
        let n10 := n * 10
        let n1 := (n10 + d) % 2 ^ 64
        if n1 < n10 ∨ n1 > maxVal then
          (maxVal, some .ErrRange)
        else
          parseUintLoop maxVal cs n1
    else
      (0, some .ErrSyntax)

/-- Model of `strconv.ParseUint(s, 10, bitSize)` for `0 < bitSize ≤ 64`. -/
def ParseUint (s : List Char) (bitSize : Nat) : Nat × Option NumError :=
  if s = [] then (0, some .ErrSyntax)
  else parseUintLoop (2 ^ bitSize - 1) s 0

/-- Model of `strconv.ParseInt(s, 10, 0)`: an optional sign, then `ParseUint`; a value
that does not fit the signed type is replaced by the bound of its sign, with a range
error. -/
def ParseInt (s : List Char) : Int × Option NumError :=
  if s = [] then (0, some .ErrSyntax)
  else
    let neg : Bool := s.head? = some '-'
    let s1 := if s.head? = some '+' ∨ s.head? = some '-' then s.tail else s
    let (un, err) := ParseUint s1 IntSize
    if err = some .ErrSyntax then (0, err)
    else
      let cutoff : Nat := 2 ^ (IntSize - 1)
      if !neg ∧ un ≥ cutoff then (((cutoff : Nat) : Int) - 1, some .ErrRange)
      else if neg ∧ un > cutoff then (-((cutoff : Nat) : Int), some .ErrRange)
      else (if neg then -((un : Nat) : Int) else ((un : Nat) : Int), none)

/-- Model of `strconv.Atoi`: `ParseInt(s, 10, 0)` converted to `int` (the same 64 bits). -/
def Atoi (s : String) : Int × Option NumError :=
  ParseInt s.data

end strconv

namespace strings

/-- Model of `strings.Split(s, sep)` for a one-byte separator: the pieces of `s` between
the occurrences of `sep`, in order; a text without `sep` gives the one piece `s`. -/
def splitChars (sep : Char) : List Char → List (List Char)
  | [] => [[]]
  | c :: cs =>
    if c = sep then [] :: splitChars sep cs
    else
      match splitChars sep cs with
      | [] => [[c]]
      | p :: ps => (c :: p) :: ps

/-- Model of `strings.Split(s, sep)` for a one-byte separator. -/
def Split (s : String) (sep : Char) : List String :=
  (splitChars sep s.data).map String.mk

/-- Model of `unicode.IsSpace`: the Latin-1 white space characters and the characters of
Unicode's White_Space property beyond Latin-1. -/
def IsSpace (c : Char) : Bool :=
  let r := c.toNat
  if r ≤ 0xFF then
    r = 0x09 ∨ r = 0x0A ∨ r = 0x0B ∨ r = 0x0C ∨ r = 0x0D ∨ r = 0x20 ∨ r = 0x85 ∨ r = 0xA0
  else
    r = 0x1680 ∨ (0x2000 ≤ r ∧ r ≤ 0x200A) ∨ r = 0x2028 ∨ r = 0x2029 ∨ r = 0x202F
      ∨ r = 0x205F ∨ r = 0x3000

/-- White space removed from both ends of a character list. -/
def trimSpaceChars (s : List Char) : List Char :=
  ((s.dropWhile IsSpace).reverse.dropWhile IsSpace).reverse

/-- Model of `strings.TrimSpace`: `s` without its leading and trailing white space. -/
def TrimSpace (s : String) : String :=
  String.mk (trimSpaceChars s.data)

/-- Position of the last `sep` in a character list, or -1 when there is none. -/
def lastIndexChars (sep : Char) : List Char → Int
  | [] => -1
  | c :: cs =>
    let i := lastIndexChars sep cs
    if i ≠ -1 then i + 1 else if c = sep then 0 else -1

/-- Model of `strings.LastIndex(s, sep)` for a one-byte separator. -/
def LastIndex (s : String) (sep : Char) : Int :=
  lastIndexChars sep s.data

end strings

namespace utils

/-- The process environment: the variables that are set, with their values. -/
abbrev Environ := List (String × String)

/-- Model of `os.Getenv`: the value of the variable, "" when it is not set. -/
def Getenv (env : Environ) (key : String) : String :=
  (env.lookup key).getD ""

/-- Value of `time.Second`, in nanoseconds. -/
def Second : Int := 1000000000

/-- Embedding of `utils.Timeout`. -/
def Timeout (env : Environ) : Int :=
  let envTimeout := Getenv env "TIMEOUT"
  if envTimeout.length != 0 then
    let (etimeout, _) := strconv.Atoi envTimeout
    etimeout
  else
    Second * 10

/-- Embedding of `utils.Region`. -/
def Region (env : Environ) : String :=
  let envRegion := Getenv env "REGION"
  if envRegion.length != 0 then envRegion else "us-east-1"

/-- Embedding of `utils.Port`. -/
def Port (env : Environ) : String :=
  let envPort := Getenv env "PORT"
  if envPort.length != 0 then envPort else "8080"

/-- Embedding of `utils.BucketName`; the error is `errors.New` of the message. -/
def BucketName (env : Environ) : Except String String :=
  let envBucket := Getenv env "BUCKET"
  if envBucket.length != 0 then .ok envBucket else .error "No bucket name provided"

/-- Model of `http.Header`: header names with their values. -/
abbrev Header := List (String × List String)

/-- Model of `http.Header.Get` at a key in canonical form: the first value of the key,
"" when there is none. -/
def Header.Get (h : Header) (key : String) : String :=
  match h.lookup key with
  | some (v :: _) => v
  | _ => ""

/-- The fields of `http.Request` the program reads. -/
structure Request where
  Header : Header
  RemoteAddr : String
  Method : String
  Path : String
  Form : List (String × List String)
  deriving Repr

/-- Model of `Request.FormValue`: the first value of the form field, "" when absent. -/
def Request.FormValue (r : Request) (key : String) : String :=
  match r.Form.lookup key with
  | some (v :: _) => v
  | _ => ""

/-- Embedding of `utils.ipAddrFromRemoteAddr`. -/
def ipAddrFromRemoteAddr (s : String) : String :=
  let idx := strings.LastIndex s ':'
  if idx = -1 then s
  else String.mk (s.data.take idx.toNat)

/-- Embedding of `utils.RequestGetRemoteAddress`.  `none` stands for the run-time panic of
`parts[0]` on an empty slice. -/
def RequestGetRemoteAddress (r : Request) : Option String :=
  let hdr := r.Header
  let hdrRealIP := hdr.Get "X-Real-Ip"
  let hdrForwardedFor := hdr.Get "X-Forwarded-For"
  if hdrRealIP = "" ∧ hdrForwardedFor = "" then
    some (ipAddrFromRemoteAddr r.RemoteAddr)
  else if hdrForwardedFor ≠ "" then
    let parts := (strings.Split hdrForwardedFor ',').map strings.TrimSpace
    parts[0]?
  else
    some hdrRealIP

end utils

namespace s3proxy

open utils

/-- Embedding of the struct `s3Proxy`; `timeout` is a `time.Duration`. -/
structure s3Proxy where
  bucket : String
  timeout : Int
  port : String
  region : String
  deriving DecidableEq, Repr

/-- Go `error` values as far as the program tells them apart: those that implement
`awserr.Error` (with a code and a message) and all others. -/
inductive GoError where
  | awserr (code : String) (message : String)
  | other (text : String)
  deriving DecidableEq, Repr

/-- Value of the SDK constant `request.CanceledErrorCode`. -/
def CanceledErrorCode : String := "RequestCanceled"

/-- A byte of an object body. -/
abbrev Byte := Fin 256

/-- Model of `context.Context`: its deadline, as the timeout it was made with;
`none` for `context.Background()`. -/
structure Context where
  timeout : Option Int
  deriving DecidableEq, Repr

/-- Model of `context.Background()`. -/
def Background : Context := ⟨none⟩

/-- A cancel function as returned by `context.WithTimeout`. -/
structure CancelFunc where
  ctx : Context
  deriving DecidableEq, Repr

/-- Model of `context.WithTimeout`: the bounded context and its cancel function. -/
def WithTimeout (_parent : Context) (d : Int) : Context × CancelFunc :=
  (⟨some d⟩, ⟨⟨some d⟩⟩)

/-- Model of `result.Body`, an `io.ReadCloser`: the chunks its reads deliver, in order, and
how the stream ends (`none` for `io.EOF`, else the read error). -/
structure ReadCloser where
  reads : List (List Byte)
  err : Option GoError
  deriving DecidableEq, Repr

/-- Model of `ioutil.ReadAll`: everything read up to the end of the stream or the first
error, and that error (`io.EOF` is not reported as one). -/
def ReadAll (b : ReadCloser) : List Byte × Option GoError :=
  (b.reads.foldr (fun chunk acc => chunk ++ acc) [], b.err)

/-- What lies outside the handler: the SDK's session constructor, the storage backend
behind `GetObjectWithContext`, and the two clock readings around the fetch. -/
structure World where
  NewSession : String → Except GoError Unit
  GetObjectWithContext : Context → String → String → Except GoError ReadCloser
  fetchStart : Int
  fetchEnd : Int

/-- Model of `http.ResponseWriter` at the handler's entry: the header map it hands out. -/
structure ResponseWriter where
  Header : Header
  deriving Repr

/-- An operand of a log call: a text, a `time.Duration`, an error, or a time rendered by
`Format(time.RFC3339)`. -/
inductive Operand where
  | str (s : String)
  | duration (d : Int)
  | err (e : GoError)
  | rfc3339 (t : Int)
  deriving DecidableEq, Repr

/-- Format of the access line `getObject` writes with `Info.Printf`. -/
def accessFormat : String := "%s - %s - %s - %s - %v - %s"

/-- The observable actions of the program, in the order it performs them. -/
inductive Effect where
  | Stderr (format : String) (err : GoError)
  | ErrorPrintln (operands : List Operand)
  | InfoPrintln (operands : List Operand)
  | InfoPrintf (format : String) (operands : List Operand)
  | WriteHeader (status : Nat)
  | Write (body : List Byte)
  | GetObject (ctx : Context) (bucket : String) (key : String)
  | Cancel (fn : CancelFunc)
  | Exit (code : Nat)
  | HandleFunc (pattern : String)
  | ListenAndServe (addr : String)
  deriving DecidableEq, Repr

/-- How a function call ends. -/
inductive Termination where
  | returned
  | panicked
  deriving DecidableEq, Repr

/-- A run of the handler: what it did and how it ended. -/
structure Outcome where
  effects : List Effect
  exit : Termination
  deriving DecidableEq, Repr

/-- Value of `http.StatusRequestTimeout`. -/
def StatusRequestTimeout : Nat := 408

/-- Value of `http.StatusBadGateway`. -/
def StatusBadGateway : Nat := 502

/-- Model of `Time.Sub`: the difference, kept within the range of a `time.Duration`. -/
def Sub (t u : Int) : Int :=
  max (-(2 : Int) ^ 63) (min (t - u) ((2 : Int) ^ 63 - 1))

/-- Embedding of `check`. -/
def check (err : Option GoError) : List Effect :=
  match err with
  | some (.awserr code message) =>
    [.ErrorPrintln [.str "Error:", .str code, .str message]]
  | _ => []

/-- Embedding of `getDefaults`. -/
def getDefaults (env : Environ) : Except String s3Proxy :=
  .ok { bucket := "", region := Region env, port := Port env, timeout := Timeout env }

/-- The deferred call `defer cancelFn()`, run when the function exits after `body`: Go
evaluates the function value at the `defer` statement and panics at the call when that
value is nil. -/
def runDeferred (cancelFn : Option CancelFunc) (body : Outcome) : Outcome :=
  match cancelFn with
  | none => ⟨body.effects, .panicked⟩
  | some fn => ⟨body.effects ++ [.Cancel fn], body.exit⟩

/-- Embedding of `getObject`. -/
def getObject (world : World) (w : ResponseWriter) (r : Request) (s3p : s3Proxy) : Outcome :=
  let keyName := r.FormValue "key"
  match world.NewSession s3p.region with
  | .error err =>
    ⟨[.Stderr "not able to create an aws sessions, %v\n" err] ++ check (some err), .returned⟩
  | .ok _ =>
    let ctx := Background
    let bounded := WithTimeout ctx s3p.timeout
    let ctx := if s3p.timeout > 0 then bounded.1 else ctx
    let cancelFn : Option CancelFunc := if s3p.timeout > 0 then some bounded.2 else none
    runDeferred cancelFn <|
      let start := world.fetchStart
      let fetch := Effect.GetObject ctx s3p.bucket keyName
      let result := world.GetObjectWithContext ctx s3p.bucket keyName
      let delta := Sub world.fetchEnd start
      match result with
      | .error err =>
        -- aerr, ok := err.(awserr.Error); ok && aerr.Code() == request.CanceledErrorCode
        let canceled : Bool :=
          match err with
          | .awserr code _ => code = CanceledErrorCode
          | .other _ => false
        if canceled then
          ⟨[fetch, .Stderr "download canceled due to timeout, %v\n" err,
            .WriteHeader StatusRequestTimeout], .returned⟩
        else
          ⟨[fetch, .Stderr "failed to download the object, %v\n" err,
            .WriteHeader StatusBadGateway], .returned⟩
      | .ok resultBody =>
        let read := ReadAll resultBody
        let body := read.1
        let readLog : List Effect :=
          match read.2 with
          | some err => [.ErrorPrintln [.str "Error redaing http response body : ", .err err]]
          | none => []
        match RequestGetRemoteAddress r with
        | none => ⟨[fetch] ++ readLog, .panicked⟩
        | some ip =>
          let contentLength := w.Header.Get "Content-Length"
          let contentLength := if contentLength.length = 0 then "cached" else contentLength
          let contentLength := contentLength ++ " bytes"
          ⟨[fetch] ++ readLog ++
            [.Write body,
             .InfoPrintf accessFormat
               [.rfc3339 start, .str ip, .str r.Method, .str r.Path, .duration delta,
                .str contentLength]], .returned⟩

/-- Embedding of `makeS3Proxy`: what it logs, and its result. -/
def makeS3Proxy (env : Environ) : List Effect × Except String s3Proxy :=
  match BucketName env with
  | .error bucketError => ([], .error bucketError)
  | .ok bucketName =>
    let log := [Effect.InfoPrintln [.str "Bucket Name : ", .str bucketName]]
    match getDefaults env with
    | .error err => (log, .error err)
    | .ok s3p => (log, .ok { s3p with bucket := bucketName })

/-- Embedding of `main`, up to the point where `http.ListenAndServe` returns;
`listenErr` is the error it returns with, `none` while it keeps serving. -/
def main (env : Environ) (listenErr : Option GoError) : List Effect :=
  match makeS3Proxy env with
  | (log, .error err) =>
    log ++ [.ErrorPrintln [.err (.other err)], .Exit 1]
  | (log, .ok s3p) =>
    log ++
      [.InfoPrintln [.str "Timeout Configured : ", .duration s3p.timeout],
       .InfoPrintln [.str "AWS Region Name : ", .str s3p.region],
       .InfoPrintf "S3 Proxy Server Listening on: %s\n" [.str s3p.port],
       .HandleFunc "/getObject",
       .ListenAndServe (":" ++ s3p.port)] ++
      (match listenErr with
       | some e => [.ErrorPrintln [.err e]]
       | none => [])

/-- The statuses the handler passed to `WriteHeader`, in order. -/
def statusesWritten : List Effect → List Nat
  | [] => []
  | .WriteHeader s :: es => s :: statusesWritten es
  | _ :: es => statusesWritten es

/-- The bytes the handler passed to `Write`, in order. -/
def bodyWritten : List Effect → List Byte
  | [] => []
  | .Write b :: es => b ++ bodyWritten es
  | _ :: es => bodyWritten es

/-- The access-log entries emitted, in order: the operands of each `Info.Printf` call made
with the access format. -/
def accessLog : List Effect → List (List Operand)
  | [] => []
  | .InfoPrintf format operands :: es =>
    if format = accessFormat then operands :: accessLog es else accessLog es
  | _ :: es => accessLog es

end s3proxy

namespace strconv

/-- The number a sequence of decimal digits writes, most significant digit first. -/
def decimalValue (ds : List Char) : Nat :=
  ds.foldl (fun n c => n * 10 + (c.toNat - '0'.toNat)) 0

/-- `s` writes the integer `n` in decimal: an optional sign `+` or `-`, then one or more
digits `0`..`9`. -/
def IsDecimal (s : String) (n : Int) : Prop :=
  ∃ ds : List Char, ds ≠ [] ∧ (∀ c ∈ ds, '0' ≤ c ∧ c ≤ '9') ∧
    ((s.data = ds ∧ n = (decimalValue ds : Int)) ∨
     (s.data = '+' :: ds ∧ n = (decimalValue ds : Int)) ∨
     (s.data = '-' :: ds ∧ n = -(decimalValue ds : Int)))

end strconv

namespace s3proxy

open utils

/-- The context `getObject` passes to `GetObjectWithContext`: bounded by the timeout when
that is positive, `context.Background()` otherwise. -/
def fetchContext (s3p : s3Proxy) : Context :=
  if s3p.timeout > 0 then (WithTimeout Background s3p.timeout).1 else Background

/-- A backend that is slow: it delivers the object "abc" when the fetch has no deadline,
and the SDK reports the request canceled when the fetch has one. -/
def slowBackend : World where
  NewSession := fun _ => .ok ()
  GetObjectWithContext := fun ctx _ _ =>
    match ctx.timeout with
    | none => .ok ⟨[[97, 98], [99]], none⟩
    | some _ => .error (.awserr CanceledErrorCode "request context canceled")
  fetchStart := 1000
  fetchEnd := 6000

/-- A backend that has no object under any key. -/
def emptyBackend : World where
  NewSession := fun _ => .ok ()
  GetObjectWithContext := fun _ _ key =>
    .error (.awserr "NoSuchKey" ("The specified key does not exist: " ++ key))
  fetchStart := 1000
  fetchEnd := 2000

/-- A request for the key "k" from the peer 10.0.0.1. -/
def sampleRequest : Request :=
  ⟨[], "10.0.0.1:54321", "GET", "/getObject", [("key", ["k"])]⟩

/-- A fresh response writer: no header set. -/
def freshWriter : ResponseWriter := ⟨[]⟩

end s3proxy

/-! ## The library models -/

namespace utils
open strings

theorem String_length_ne_zero (s : String) : (s.length != 0) = true ↔ s ≠ "" := by
  have h : s.length = s.data.length := rfl
  rw [h, Ne, String.ext_iff]
  cases s.data <;> simp

theorem splitChars_head (sep : Char) (s : List Char) :
    ∃ rest, splitChars sep s = s.takeWhile (fun c => c != sep) :: rest := by
  induction s with
  | nil => exact ⟨[], rfl⟩
  | cons c cs ih =>
    obtain ⟨rest, hrest⟩ := ih
    by_cases h : c = sep
    · exact ⟨splitChars sep cs, by simp [splitChars, h]⟩
    · exact ⟨rest, by simp [splitChars, h, hrest]⟩

theorem lastIndexChars_spec (sep : Char) (s : List Char) :
    (sep ∉ s ∧ lastIndexChars sep s = -1) ∨
    (∃ pre post, s = pre ++ sep :: post ∧ sep ∉ post ∧ lastIndexChars sep s = (pre.length : Int)) := by
  induction s with
  | nil => left; simp [lastIndexChars]
  | cons c cs ih =>
    rcases ih with ⟨hn, hi⟩ | ⟨pre, post, hs, hp, hi⟩
    · by_cases h : c = sep
      · right
        refine ⟨[], cs, by simp [h], hn, ?_⟩
        simp [lastIndexChars, hi, h]
      · left
        refine ⟨?_, ?_⟩
        · simp [hn, Ne.symm h]
        · simp [lastIndexChars, hi, h]
    · right
      refine ⟨c :: pre, post, by simp [hs], hp, ?_⟩
      have : (pre.length : Int) ≠ -1 := by omega
      simp [lastIndexChars, hi, this]

theorem trimSpaceChars_spec (s : List Char) :
    ∃ lead trail, s = lead ++ trimSpaceChars s ++ trail ∧
      (∀ c ∈ lead, IsSpace c = true) ∧ (∀ c ∈ trail, IsSpace c = true) ∧
      (∀ c, (trimSpaceChars s).head? = some c → IsSpace c = false) ∧
      (∀ c, (trimSpaceChars s).getLast? = some c → IsSpace c = false) := by
  refine ⟨s.takeWhile IsSpace, ((s.dropWhile IsSpace).reverse.takeWhile IsSpace).reverse,
    ?_, ?_, ?_, ?_, ?_⟩
  · have h1 := List.takeWhile_append_dropWhile IsSpace s
    have h2 := List.takeWhile_append_dropWhile IsSpace (s.dropWhile IsSpace).reverse
    have h3 := congrArg List.reverse h2
    simp only [List.reverse_append, List.reverse_reverse] at h3
    unfold trimSpaceChars
    rw [List.append_assoc, h3, h1]
  · intro c hc
    exact List.mem_takeWhile_imp hc
  · intro c hc
    exact List.mem_takeWhile_imp (List.mem_reverse.mp hc)
  · intro c hc
    have hp : trimSpaceChars s <+: s.dropWhile IsSpace := List.rdropWhile_prefix IsSpace _
    obtain ⟨t, ht⟩ := hp
    have hh : (s.dropWhile IsSpace).head? = some c := by
      rw [← ht]
      cases hm : trimSpaceChars s with
      | nil => rw [hm] at hc; simp at hc
      | cons a l => rw [hm] at hc; simpa using hc
    have := List.head?_dropWhile_not IsSpace s
    rw [hh] at this
    simpa using this
  · intro c hc
    unfold trimSpaceChars at hc
    rw [List.getLast?_reverse] at hc
    have := List.head?_dropWhile_not IsSpace (s.dropWhile IsSpace).reverse
    rw [hc] at this
    simpa using this

end utils

namespace strconv

theorem foldl_digits_ge (ds : List Char) (n : Nat) :
    n ≤ ds.foldl (fun n c => n * 10 + (c.toNat - '0'.toNat)) n := by
  induction ds generalizing n with
  | nil => simp
  | cons c cs ih =>
    simp only [List.foldl_cons]
    exact le_trans (by omega) (ih _)

theorem parseUintLoop_digits (maxVal : Nat) (hmax : maxVal ≤ 2 ^ 64 - 1) (ds : List Char)
    (hd : ∀ c ∈ ds, '0' ≤ c ∧ c ≤ '9') (n : Nat)
    (hle : ds.foldl (fun n c => n * 10 + (c.toNat - '0'.toNat)) n ≤ maxVal) :
    parseUintLoop maxVal ds n
      = (ds.foldl (fun n c => n * 10 + (c.toNat - '0'.toNat)) n, none) := by
  induction ds generalizing n with
  | nil => simp [parseUintLoop]
  | cons c cs ih =>
    have hc := hd c (List.mem_cons_self _ _)
    simp only [List.foldl_cons] at hle ⊢
    have hge := foldl_digits_ge cs (n * 10 + (c.toNat - '0'.toNat))
    have hn1 : n * 10 + (c.toNat - '0'.toNat) ≤ maxVal := le_trans hge hle
    have h64 : (2:Nat) ^ 64 = 18446744073709551616 := by norm_num
    rw [h64] at hmax
    have hcut : ¬ (n ≥ maxUint64 / 10 + 1) := by
      simp only [maxUint64, h64]
      omega
    have hmod : (n * 10 + (c.toNat - '0'.toNat)) % 2 ^ 64 = n * 10 + (c.toNat - '0'.toNat) := by
      apply Nat.mod_eq_of_lt
      rw [h64]; omega
    simp only [parseUintLoop, hc, and_self, if_true, hcut, if_false, hmod]
    rw [if_neg (by omega)]
    exact ih (fun c h => hd c (List.mem_cons_of_mem _ h)) _ hle

theorem ParseUint_digits (ds : List Char) (hne : ds ≠ [])
    (hd : ∀ c ∈ ds, '0' ≤ c ∧ c ≤ '9') (hle : decimalValue ds ≤ 2 ^ 64 - 1) :
    ParseUint ds IntSize = (decimalValue ds, none) := by
  simp only [ParseUint, if_neg hne, IntSize]
  exact parseUintLoop_digits _ (le_refl _) ds hd 0 hle

theorem digit_ne_sign {c : Char} (h : '0' ≤ c ∧ c ≤ '9') : c ≠ '+' ∧ c ≠ '-' := by
  constructor <;> (intro hc; subst hc; revert h; decide)

theorem Atoi_decimal (s : String) (n : Int) (h : IsDecimal s n)
    (hlo : -(2 : Int) ^ 63 ≤ n) (hhi : n < (2 : Int) ^ 63) : Atoi s = (n, none) := by
  obtain ⟨ds, hne, hd, hcase⟩ := h
  have h63 : (2:Int) ^ 63 = 9223372036854775808 := by norm_num
  have h63n : (2:Nat) ^ 63 = 9223372036854775808 := by norm_num
  have h64 : (2:Nat) ^ 64 = 18446744073709551616 := by norm_num
  rw [h63] at hlo hhi
  obtain ⟨d, dt, rfl⟩ := List.exists_cons_of_ne_nil hne
  have hdsign := digit_ne_sign (hd d (List.mem_cons_self _ _))
  have hU : decimalValue (d :: dt) ≤ 2 ^ 64 - 1 →
      ParseUint (d :: dt) 64 = (decimalValue (d :: dt), none) :=
    fun hle => ParseUint_digits (d :: dt) hne hd hle
  rw [h64] at hU
  rcases hcase with ⟨hs, hn⟩ | ⟨hs, hn⟩ | ⟨hs, hn⟩
  · simp [Atoi, ParseInt, hs, hdsign.1, hdsign.2, hU (by omega), IntSize, h63n]
    rw [if_neg (by omega)]
    simp [hn]
  · simp [Atoi, ParseInt, hs, hU (by omega), IntSize, h63n]
    rw [if_neg (by omega)]
    simp [hn]
  · simp [Atoi, ParseInt, hs, hU (by omega), IntSize, h63n]
    rw [if_neg (by omega)]
    simp [hn]

theorem Atoi_error_value (s : String) (e : NumError) (h : (Atoi s).2 = some e) :
    (e = .ErrSyntax → (Atoi s).1 = 0) ∧
    (e = .ErrRange → (Atoi s).1 =
      if s.data.head? = some '-' then -(2 : Int) ^ 63 else (2 : Int) ^ 63 - 1) := by
  have h63n : (2:Nat) ^ 63 = 9223372036854775808 := by norm_num
  have h63 : (2:Int) ^ 63 = 9223372036854775808 := by norm_num
  rw [h63]
  unfold Atoi ParseInt at h ⊢
  by_cases hs : s.data = []
  · simp only [hs, if_true] at h ⊢
    cases e <;> simp_all
  · simp only [if_neg hs] at h ⊢
    generalize ParseUint (if s.data.head? = some '+' ∨ s.data.head? = some '-' then s.data.tail
      else s.data) IntSize = pu at h ⊢
    obtain ⟨un, err⟩ := pu
    simp only [IntSize, h63n] at h ⊢
    by_cases he : err = some NumError.ErrSyntax
    · simp only [he, if_true] at h ⊢
      cases e <;> simp_all
    · simp only [if_neg he] at h ⊢
      by_cases hneg : s.data.head? = some '-'
      · simp only [hneg, decide_True, Bool.not_true, Bool.false_eq_true, false_and, if_false,
          true_and, if_true] at h ⊢
        by_cases hc : un > 9223372036854775808
        · simp only [hc, if_true] at h ⊢
          cases e <;> simp_all
        · simp only [hc, if_false] at h ⊢
          simp at h
      · simp only [hneg, decide_False, Bool.not_false, true_and, if_false, false_and] at h ⊢
        by_cases hc : un ≥ 9223372036854775808
        · simp only [hc, if_true] at h ⊢
          cases e <;> simp_all
        · simp only [hc, if_false] at h ⊢
          simp at h

end strconv

/-! ## Client address resolution (`utils.RequestGetRemoteAddress`) -/

namespace utils
open strings

/-- C5: whenever the X-Forwarded-For header is non-empty -- whatever X-Real-Ip and the peer
address are -- `RequestGetRemoteAddress` returns the text before the first comma of that
header with its leading and trailing white space removed: the result is
`TrimSpace` of that text, it neither starts nor ends with white space, and the text is the
result with only white space before and after it. -/
theorem RequestGetRemoteAddress_forwardedFor (r : Request)
    (h : r.Header.Get "X-Forwarded-For" ≠ "") :
    let first := (r.Header.Get "X-Forwarded-For").data.takeWhile (fun c => c != ',')
    RequestGetRemoteAddress r = some (TrimSpace (String.mk first)) ∧
    ∃ ip lead trail, RequestGetRemoteAddress r = some (String.mk ip) ∧
      first = lead ++ ip ++ trail ∧
      (∀ c ∈ lead, IsSpace c = true) ∧ (∀ c ∈ trail, IsSpace c = true) ∧
      (∀ c, ip.head? = some c → IsSpace c = false) ∧
      (∀ c, ip.getLast? = some c → IsSpace c = false) := by
  intro first
  have hres : RequestGetRemoteAddress r = some (TrimSpace (String.mk first)) := by
    obtain ⟨rest, hrest⟩ := splitChars_head ',' (r.Header.Get "X-Forwarded-For").data
    simp only [RequestGetRemoteAddress, Split, hrest]
    rw [if_neg (fun hh => h hh.2), if_pos h]
    simp [first]
  refine ⟨hres, ?_⟩
  obtain ⟨lead, trail, h1, h2, h3, h4, h5⟩ := trimSpaceChars_spec first
  exact ⟨trimSpaceChars first, lead, trail, hres, h1, h2, h3, h4, h5⟩

/-- The X-Forwarded-For example of the specification: "1.2.3.4, 5.6.7.8" resolves to
"1.2.3.4", here with X-Real-Ip set as well. -/
theorem RequestGetRemoteAddress_forwardedFor_witness :
    RequestGetRemoteAddress
      ⟨[("X-Real-Ip", ["9.9.9.9"]), ("X-Forwarded-For", ["1.2.3.4, 5.6.7.8"])],
        "10.0.0.1:54321", "GET", "/getObject", []⟩ = some "1.2.3.4" :=
  (RequestGetRemoteAddress_forwardedFor
    ⟨[("X-Real-Ip", ["9.9.9.9"]), ("X-Forwarded-For", ["1.2.3.4, 5.6.7.8"])],
      "10.0.0.1:54321", "GET", "/getObject", []⟩ (by decide)).1.trans (by decide)

/-- C6: with neither X-Real-Ip nor X-Forwarded-For set, `RequestGetRemoteAddress` returns
the peer address unchanged when it has no colon, and otherwise the part of it before its
rightmost colon (what follows that colon holds no colon). -/
theorem RequestGetRemoteAddress_peer (r : Request)
    (hreal : r.Header.Get "X-Real-Ip" = "") (hfwd : r.Header.Get "X-Forwarded-For" = "") :
    (':' ∉ r.RemoteAddr.data → RequestGetRemoteAddress r = some r.RemoteAddr) ∧
    (':' ∈ r.RemoteAddr.data → ∃ host port,
      RequestGetRemoteAddress r = some (String.mk host) ∧
      r.RemoteAddr.data = host ++ ':' :: port ∧ ':' ∉ port) := by
  have hres : RequestGetRemoteAddress r = some (ipAddrFromRemoteAddr r.RemoteAddr) := by
    simp [RequestGetRemoteAddress, hreal, hfwd]
  rw [hres]
  rcases lastIndexChars_spec ':' r.RemoteAddr.data with ⟨hn, hi⟩ | ⟨pre, post, hs, hp, hi⟩
  · refine ⟨fun _ => ?_, fun hm => absurd hm hn⟩
    simp [ipAddrFromRemoteAddr, LastIndex, hi]
  · refine ⟨fun hn => ?_, fun _ => ⟨pre, post, ?_, hs, hp⟩⟩
    · exact absurd (by rw [hs]; simp) hn
    · have hne : (pre.length : Int) ≠ -1 := by omega
      simp only [ipAddrFromRemoteAddr, LastIndex, hi, if_neg hne, Int.toNat_ofNat]
      rw [hs]
      simp

/-- The peer-address examples: "10.0.0.1:54321" gives "10.0.0.1", "[::1]:1234" gives
"[::1]", and an address without a colon is returned as it is. -/
theorem RequestGetRemoteAddress_peer_witness :
    ((':' ∉ "10.0.0.1:54321".data →
        RequestGetRemoteAddress ⟨[], "10.0.0.1:54321", "GET", "/getObject", []⟩
          = some "10.0.0.1:54321") ∧
      (':' ∈ "10.0.0.1:54321".data → ∃ host port,
        RequestGetRemoteAddress ⟨[], "10.0.0.1:54321", "GET", "/getObject", []⟩
          = some (String.mk host) ∧
        "10.0.0.1:54321".data = host ++ ':' :: port ∧ ':' ∉ port)) ∧
    RequestGetRemoteAddress ⟨[], "10.0.0.1:54321", "GET", "/getObject", []⟩
      = some "10.0.0.1" ∧
    RequestGetRemoteAddress ⟨[], "[::1]:1234", "GET", "/getObject", []⟩ = some "[::1]" ∧
    RequestGetRemoteAddress ⟨[], "localhost", "GET", "/getObject", []⟩ = some "localhost" :=
  ⟨RequestGetRemoteAddress_peer ⟨[], "10.0.0.1:54321", "GET", "/getObject", []⟩
      (by decide) (by decide),
    by decide, by decide, by decide⟩

/-- C7: with a non-empty X-Real-Ip header and no X-Forwarded-For header,
`RequestGetRemoteAddress` returns the X-Real-Ip value as it is, whatever the peer address. -/
theorem RequestGetRemoteAddress_realIP (r : Request)
    (hreal : r.Header.Get "X-Real-Ip" ≠ "") (hfwd : r.Header.Get "X-Forwarded-For" = "") :
    RequestGetRemoteAddress r = some (r.Header.Get "X-Real-Ip") := by
  simp [RequestGetRemoteAddress, hreal, hfwd]

/-- The X-Real-Ip examples: "9.9.9.9" resolves to "9.9.9.9"; a value with white space and a
port is returned untrimmed and uncut. -/
theorem RequestGetRemoteAddress_realIP_witness :
    RequestGetRemoteAddress ⟨[("X-Real-Ip", ["9.9.9.9"])], "10.0.0.1:54321", "GET", "/", []⟩
      = some "9.9.9.9" ∧
    RequestGetRemoteAddress ⟨[("X-Real-Ip", [" 9.9.9.9:80 "])], "10.0.0.1:54321", "GET", "/", []⟩
      = some " 9.9.9.9:80 " :=
  ⟨(RequestGetRemoteAddress_realIP
      ⟨[("X-Real-Ip", ["9.9.9.9"])], "10.0.0.1:54321", "GET", "/", []⟩
      (by decide) (by decide)).trans (by decide),
    by decide⟩

end utils

/-! ## Configuration (`utils.Timeout`, `makeS3Proxy`, `main`) -/

namespace utils
open strconv

theorem Timeout_nonempty (env : Environ) (hne : Getenv env "TIMEOUT" ≠ "") :
    Timeout env = (Atoi (Getenv env "TIMEOUT")).1 := by
  unfold Timeout
  simp only []
  rw [if_pos ((String_length_ne_zero _).mpr hne)]

theorem Timeout_empty (env : Environ) (he : Getenv env "TIMEOUT" = "") :
    Timeout env = 10000000000 := by
  unfold Timeout
  simp only [he]
  decide

/-- C8, as amended: for a non-empty TIMEOUT value on which `strconv.Atoi` reports an error,
`Timeout` ignores the error and returns the value `Atoi` returned with it: 0 for a syntax
error, and for a range error the bound of the value's sign (`-2^63` after a `-`, else
`2^63 - 1`); it is never the 10-second default. -/
theorem Timeout_parse_error (env : Environ) (e : strconv.NumError)
    (hne : Getenv env "TIMEOUT" ≠ "")
    (herr : (Atoi (Getenv env "TIMEOUT")).2 = some e) :
    (e = .ErrSyntax → Timeout env = 0) ∧
    (e = .ErrRange → Timeout env =
      if (Getenv env "TIMEOUT").data.head? = some '-' then -(2 : Int) ^ 63
      else (2 : Int) ^ 63 - 1) ∧
    Timeout env ≠ Second * 10 := by
  have hv := Atoi_error_value _ e herr
  rw [Timeout_nonempty env hne]
  refine ⟨hv.1, hv.2, ?_⟩
  cases e with
  | ErrSyntax => rw [hv.1 rfl]; decide
  | ErrRange =>
    rw [hv.2 rfl]
    by_cases hneg : (Getenv env "TIMEOUT").data.head? = some '-'
    · simp only [hneg, if_true]; decide
    · simp only [hneg, if_false]; decide

/-- A TIMEOUT value that is no number yields 0, one past the range of `int` yields the
bound. -/
theorem Timeout_parse_error_witness :
    Timeout [("TIMEOUT", "abc")] = 0 ∧
    Timeout [("TIMEOUT", "-9223372036854775809")] = -9223372036854775808 :=
  ⟨(Timeout_parse_error [("TIMEOUT", "abc")] .ErrSyntax (by decide) (by decide)).1 rfl,
    by decide⟩

/-- C8 as stated fails: on TIMEOUT="9223372036854775808" (one more than the largest `int`)
`strconv.Atoi` reports an error, and `Timeout` returns `2^63 - 1` nanoseconds, not 0. -/
theorem Timeout_parse_error_counterexample :
    Getenv [("TIMEOUT", "9223372036854775808")] "TIMEOUT" ≠ "" ∧
    (Atoi (Getenv [("TIMEOUT", "9223372036854775808")] "TIMEOUT")).2 = some .ErrRange ∧
    Timeout [("TIMEOUT", "9223372036854775808")] = 9223372036854775807 ∧
    Timeout [("TIMEOUT", "9223372036854775808")] ≠ 0 := by
  decide

/-- C9: `Timeout` returns exactly 10 seconds, 10,000,000,000 ns, when TIMEOUT is unset or
empty; when TIMEOUT writes an integer `n` of the range of `int` in decimal it returns exactly
`n` nanoseconds, with no seconds multiplier: TIMEOUT="10" gives 10 ns. -/
theorem Timeout_default_and_decimal (env : Environ) :
    (Getenv env "TIMEOUT" = "" → Timeout env = 10000000000) ∧
    (∀ n : Int, IsDecimal (Getenv env "TIMEOUT") n → -(2 : Int) ^ 63 ≤ n → n < (2 : Int) ^ 63 →
      Timeout env = n) ∧
    Timeout [] = 10 * Second ∧
    Timeout [("TIMEOUT", "")] = 10 * Second ∧
    Timeout [("TIMEOUT", "10")] = 10 := by
  refine ⟨Timeout_empty env, ?_, by decide, by decide, by decide⟩
  intro n hdec hlo hhi
  have hne : Getenv env "TIMEOUT" ≠ "" := by
    obtain ⟨ds, hds, _, hc⟩ := hdec
    intro he
    rw [he] at hc
    rcases hc with ⟨h, _⟩ | ⟨h, _⟩ | ⟨h, _⟩
    · exact hds h.symm
    · cases h
    · cases h
  rw [Timeout_nonempty env hne, Atoi_decimal _ n hdec hlo hhi]

end utils

namespace s3proxy
open utils

theorem BucketName_eq (env : Environ) :
    BucketName env =
      if Getenv env "BUCKET" = "" then .error "No bucket name provided"
      else .ok (Getenv env "BUCKET") := by
  unfold BucketName
  by_cases h : Getenv env "BUCKET" = ""
  · simp [h]
  · simp only [h, if_false]
    rw [if_pos ((String_length_ne_zero _).mpr h)]

theorem Region_eq (env : Environ) :
    Region env = if Getenv env "REGION" = "" then "us-east-1" else Getenv env "REGION" := by
  unfold Region
  by_cases h : Getenv env "REGION" = ""
  · simp [h]
  · simp only [h, if_false]
    rw [if_pos ((String_length_ne_zero _).mpr h)]

theorem Port_eq (env : Environ) :
    Port env = if Getenv env "PORT" = "" then "8080" else Getenv env "PORT" := by
  unfold Port
  by_cases h : Getenv env "PORT" = ""
  · simp [h]
  · simp only [h, if_false]
    rw [if_pos ((String_length_ne_zero _).mpr h)]

/-- C10: `makeS3Proxy` fails if and only if BUCKET is unset or empty; it then returns no
configuration, and `main` logs the error and exits with status 1 without registering the
route or listening.  When it succeeds, the configuration's bucket is the BUCKET value, and
its region and port are the REGION and PORT values, "us-east-1" and "8080" when those are
empty. -/
theorem makeS3Proxy_bucket (env : Environ) (listenErr : Option GoError) :
    ((∃ e, (makeS3Proxy env).2 = .error e) ↔ Getenv env "BUCKET" = "") ∧
    (Getenv env "BUCKET" = "" →
      makeS3Proxy env = ([], .error "No bucket name provided") ∧
      main env listenErr =
        [.ErrorPrintln [.err (.other "No bucket name provided")], .Exit 1] ∧
      Effect.HandleFunc "/getObject" ∉ main env listenErr ∧
      ∀ addr, Effect.ListenAndServe addr ∉ main env listenErr) ∧
    (∀ s3p, (makeS3Proxy env).2 = .ok s3p →
      s3p.bucket = Getenv env "BUCKET" ∧
      s3p.region = (if Getenv env "REGION" = "" then "us-east-1" else Getenv env "REGION") ∧
      s3p.port = (if Getenv env "PORT" = "" then "8080" else Getenv env "PORT")) := by
  by_cases hb : Getenv env "BUCKET" = ""
  · have hm : makeS3Proxy env = ([], .error "No bucket name provided") := by
      simp [makeS3Proxy, BucketName_eq, hb]
    have hmain : main env listenErr =
        [.ErrorPrintln [.err (.other "No bucket name provided")], .Exit 1] := by
      simp [main, hm]
    refine ⟨⟨fun _ => hb, fun _ => ⟨_, by rw [hm]⟩⟩, fun _ => ⟨hm, hmain, ?_, ?_⟩, ?_⟩
    · rw [hmain]; simp
    · intro addr; rw [hmain]; simp
    · intro s3p h; rw [hm] at h; cases h
  · have hm : makeS3Proxy env =
        ([Effect.InfoPrintln [.str "Bucket Name : ", .str (Getenv env "BUCKET")]],
          .ok ⟨Getenv env "BUCKET", Timeout env, Port env, Region env⟩) := by
      simp [makeS3Proxy, BucketName_eq, hb, getDefaults]
    refine ⟨⟨?_, fun h => absurd h hb⟩, fun h => absurd h hb, ?_⟩
    · rintro ⟨e, he⟩; rw [hm] at he; cases he
    · intro s3p h
      rw [hm] at h
      injection h with h
      subst h
      exact ⟨rfl, Region_eq env, Port_eq env⟩

end s3proxy

/-! ## The handler (`getObject`) -/

namespace utils
open strings

theorem RequestGetRemoteAddress_total (r : Request) :
    ∃ ip, RequestGetRemoteAddress r = some ip := by
  obtain ⟨rest, hrest⟩ := splitChars_head ',' (r.Header.Get "X-Forwarded-For").data
  unfold RequestGetRemoteAddress
  simp only [Split, hrest]
  split_ifs <;> simp

end utils

namespace s3proxy
open utils

theorem statusesWritten_append (a b : List Effect) :
    statusesWritten (a ++ b) = statusesWritten a ++ statusesWritten b := by
  induction a with
  | nil => rfl
  | cons e es ih => cases e <;> simp [statusesWritten, ih]

theorem bodyWritten_append (a b : List Effect) :
    bodyWritten (a ++ b) = bodyWritten a ++ bodyWritten b := by
  induction a with
  | nil => rfl
  | cons e es ih => cases e <;> simp [bodyWritten, ih]

theorem accessLog_append (a b : List Effect) :
    accessLog (a ++ b) = accessLog a ++ accessLog b := by
  induction a with
  | nil => rfl
  | cons e es ih =>
    cases e <;> simp [accessLog, ih]
    split_ifs <;> simp

theorem runDeferred_statuses (c : Option CancelFunc) (o : Outcome) :
    statusesWritten (runDeferred c o).effects = statusesWritten o.effects := by
  cases c <;> simp [runDeferred, statusesWritten_append, statusesWritten]

theorem runDeferred_body (c : Option CancelFunc) (o : Outcome) :
    bodyWritten (runDeferred c o).effects = bodyWritten o.effects := by
  cases c <;> simp [runDeferred, bodyWritten_append, bodyWritten]

theorem runDeferred_accessLog (c : Option CancelFunc) (o : Outcome) :
    accessLog (runDeferred c o).effects = accessLog o.effects := by
  cases c <;> simp [runDeferred, accessLog_append, accessLog]

/-- With a timeout that is not positive, every run of `getObject` that gets past session
establishment ends in a panic: the deferred `cancelFn` is nil. -/
theorem getObject_panics_without_timeout (world : World) (w : ResponseWriter) (r : Request)
    (s3p : s3Proxy) (hs : world.NewSession s3p.region = .ok ()) (ht : s3p.timeout ≤ 0) :
    (getObject world w r s3p).exit = .panicked := by
  have ht' : ¬ s3p.timeout > 0 := by omega
  simp [getObject, hs, ht', runDeferred]

/-- With a positive timeout, every run of `getObject` returns normally. -/
theorem getObject_returns_with_timeout (world : World) (w : ResponseWriter) (r : Request)
    (s3p : s3Proxy) (ht : 0 < s3p.timeout) :
    (getObject world w r s3p).exit = .returned := by
  obtain ⟨ip, hip⟩ := RequestGetRemoteAddress_total r
  unfold getObject
  cases hs : world.NewSession s3p.region with
  | error e => simp
  | ok u =>
    simp only [gt_iff_lt, ht, if_true, runDeferred, hip]
    cases hf : world.GetObjectWithContext (WithTimeout Background s3p.timeout).1 s3p.bucket
        (r.FormValue "key") with
    | error e => simp only []; split_ifs <;> rfl
    | ok b => rfl

/-- C1, on the code: with timeout 0 the fetch is issued with `context.Background()`, the slow
backend delivers the object and the handler writes it and logs the access, but the run ends
in a panic, not a normal return: the deferred `cancelFn` is nil. -/
theorem getObject_timeout_zero_panics :
    getObject slowBackend freshWriter sampleRequest ⟨"b", 0, "8080", "us-east-1"⟩ =
      ⟨[.GetObject Background "b" "k",
        .Write [97, 98, 99],
        .InfoPrintf accessFormat
          [.rfc3339 1000, .str "10.0.0.1", .str "GET", .str "/getObject", .duration 5000,
           .str "cached bytes"]],
       .panicked⟩ := by
  decide

/-- C2: when the fetch returns an error, `getObject` writes status 408 if and only if the
error is an `awserr.Error` whose code is the SDK's canceled-request code, writes status 502
for every other error, writes no other status, and writes no response body. -/
theorem getObject_fetch_error (world : World) (w : ResponseWriter) (r : Request)
    (s3p : s3Proxy) (err : GoError)
    (hs : world.NewSession s3p.region = .ok ())
    (hf : world.GetObjectWithContext (fetchContext s3p) s3p.bucket (r.FormValue "key")
      = .error err) :
    (statusesWritten (getObject world w r s3p).effects = [StatusRequestTimeout] ↔
      ∃ message, err = .awserr CanceledErrorCode message) ∧
    ((¬ ∃ message, err = .awserr CanceledErrorCode message) →
      statusesWritten (getObject world w r s3p).effects = [StatusBadGateway]) ∧
    bodyWritten (getObject world w r s3p).effects = [] := by
  unfold fetchContext at hf
  unfold getObject
  simp only [hs, runDeferred_statuses, runDeferred_body, hf]
  cases err with
  | awserr code message =>
    by_cases hc : code = CanceledErrorCode
    · subst hc
      simp [statusesWritten, bodyWritten]
    · simp [statusesWritten, bodyWritten, hc, StatusRequestTimeout, StatusBadGateway]
  | other text =>
    simp [statusesWritten, bodyWritten, StatusRequestTimeout, StatusBadGateway]

/-- The canceled fetch of the slow backend under a 5 ns timeout is answered with 408, the
missing key of the empty backend with 502; no body either time. -/
theorem getObject_fetch_error_witness :
    statusesWritten
      (getObject slowBackend freshWriter sampleRequest ⟨"b", 5, "8080", "us-east-1"⟩).effects
      = [408] ∧
    statusesWritten
      (getObject emptyBackend freshWriter sampleRequest ⟨"b", 5, "8080", "us-east-1"⟩).effects
      = [502] ∧
    bodyWritten
      (getObject emptyBackend freshWriter sampleRequest ⟨"b", 5, "8080", "us-east-1"⟩).effects
      = [] :=
  ⟨(getObject_fetch_error slowBackend freshWriter sampleRequest ⟨"b", 5, "8080", "us-east-1"⟩
      (.awserr CanceledErrorCode "request context canceled") rfl rfl).1.mpr ⟨_, rfl⟩,
   (getObject_fetch_error emptyBackend freshWriter sampleRequest ⟨"b", 5, "8080", "us-east-1"⟩
      (.awserr "NoSuchKey" "The specified key does not exist: k") rfl rfl).2.1
      (by rintro ⟨m, hm⟩; injection hm with h1 _; exact absurd h1 (by decide)),
   by decide⟩

/-- C3: when the fetch succeeds, the bytes `getObject` writes to the response are exactly the
bytes the object body delivers -- its chunks one after the other, in order, nothing added,
dropped or changed -- and `getObject` writes no status. -/
theorem getObject_fetch_success (world : World) (w : ResponseWriter) (r : Request)
    (s3p : s3Proxy) (body : ReadCloser)
    (hs : world.NewSession s3p.region = .ok ())
    (hf : world.GetObjectWithContext (fetchContext s3p) s3p.bucket (r.FormValue "key")
      = .ok body) :
    bodyWritten (getObject world w r s3p).effects = body.reads.flatten ∧
    statusesWritten (getObject world w r s3p).effects = [] := by
  obtain ⟨ip, hip⟩ := RequestGetRemoteAddress_total r
  have hjoin : ∀ l : List (List Byte), l.foldr (fun chunk acc => chunk ++ acc) [] = l.flatten := by
    intro l
    induction l with
    | nil => rfl
    | cons a t ih => simp [ih]
  unfold fetchContext at hf
  unfold getObject
  simp only [hs, runDeferred_statuses, runDeferred_body, hf, hip, ReadAll, hjoin]
  constructor
  · cases body.err <;> simp [bodyWritten]
  · cases body.err <;> simp [statusesWritten]

/-- The object "abc" of the slow backend, fetched without a deadline, is written as it is. -/
theorem getObject_fetch_success_witness :
    bodyWritten
      (getObject slowBackend freshWriter sampleRequest ⟨"b", 0, "8080", "us-east-1"⟩).effects
      = [97, 98, 99] ∧
    statusesWritten
      (getObject slowBackend freshWriter sampleRequest ⟨"b", 0, "8080", "us-east-1"⟩).effects
      = [] :=
  getObject_fetch_success slowBackend freshWriter sampleRequest ⟨"b", 0, "8080", "us-east-1"⟩
    ⟨[[97, 98], [99]], none⟩ rfl rfl

/-- C4 as stated fails: the request for a missing key gets past session establishment and is
answered with 502, and `getObject` emits no access-log entry for it. -/
theorem getObject_accessLog_counterexample :
    emptyBackend.NewSession "us-east-1" = .ok () ∧
    statusesWritten
      (getObject emptyBackend freshWriter sampleRequest ⟨"b", 5, "8080", "us-east-1"⟩).effects
      = [502] ∧
    accessLog
      (getObject emptyBackend freshWriter sampleRequest ⟨"b", 5, "8080", "us-east-1"⟩).effects
      = [] :=
  ⟨rfl, by decide, by decide⟩

/-- C4, as amended: for a request that gets past session establishment, `getObject` emits
exactly one access-log entry when the fetch succeeds -- start time, client IP, method, path,
fetch duration, and the size descriptor (the Content-Length header of the response, "cached"
when it is not set, followed by " bytes") -- and none when the fetch fails. -/
theorem getObject_accessLog (world : World) (w : ResponseWriter) (r : Request)
    (s3p : s3Proxy) (hs : world.NewSession s3p.region = .ok ()) :
    (∀ body, world.GetObjectWithContext (fetchContext s3p) s3p.bucket (r.FormValue "key")
        = .ok body →
      ∃ ip, RequestGetRemoteAddress r = some ip ∧
        accessLog (getObject world w r s3p).effects =
          [[.rfc3339 world.fetchStart, .str ip, .str r.Method, .str r.Path,
            .duration (Sub world.fetchEnd world.fetchStart),
            .str ((if w.Header.Get "Content-Length" = "" then "cached"
                   else w.Header.Get "Content-Length") ++ " bytes")]]) ∧
    (∀ err, world.GetObjectWithContext (fetchContext s3p) s3p.bucket (r.FormValue "key")
        = .error err →
      accessLog (getObject world w r s3p).effects = []) := by
  obtain ⟨ip, hip⟩ := RequestGetRemoteAddress_total r
  have hlen : ∀ s : String, s.length = 0 ↔ s = "" := by
    intro s
    have h : s.length = s.data.length := rfl
    rw [h, String.ext_iff]
    cases s.data <;> simp
  unfold fetchContext
  constructor
  · intro body hf
    refine ⟨ip, hip, ?_⟩
    unfold getObject
    simp only [hs, runDeferred_accessLog, hf, hip, hlen]
    cases (ReadAll body).2 <;> simp [accessLog]
  · intro err hf
    unfold getObject
    simp only [hs, runDeferred_accessLog, hf]
    split_ifs <;> simp [accessLog]

/-- One entry for the object the slow backend delivers, none for the canceled fetch. -/
theorem getObject_accessLog_witness :
    (∀ body, slowBackend.GetObjectWithContext (fetchContext ⟨"b", 0, "8080", "us-east-1"⟩)
        "b" (sampleRequest.FormValue "key") = .ok body →
      ∃ ip, RequestGetRemoteAddress sampleRequest = some ip ∧
        accessLog
          (getObject slowBackend freshWriter sampleRequest
            ⟨"b", 0, "8080", "us-east-1"⟩).effects =
          [[.rfc3339 slowBackend.fetchStart, .str ip, .str sampleRequest.Method,
            .str sampleRequest.Path,
            .duration (Sub slowBackend.fetchEnd slowBackend.fetchStart),
            .str ((if freshWriter.Header.Get "Content-Length" = "" then "cached"
                   else freshWriter.Header.Get "Content-Length") ++ " bytes")]]) ∧
    accessLog
      (getObject slowBackend freshWriter sampleRequest ⟨"b", 0, "8080", "us-east-1"⟩).effects
      = [[.rfc3339 1000, .str "10.0.0.1", .str "GET", .str "/getObject", .duration 5000,
          .str "cached bytes"]] ∧
    accessLog
      (getObject slowBackend freshWriter sampleRequest ⟨"b", 5, "8080", "us-east-1"⟩).effects
      = [] :=
  ⟨(getObject_accessLog slowBackend freshWriter sampleRequest ⟨"b", 0, "8080", "us-east-1"⟩
      rfl).1,
   by decide, by decide⟩

end s3proxy
